import Mathlib

/-!
Shallow embedding of `certbot_azure/dns_azure.py` (`_AzureClient`):
zone discovery (`_find_managed_zone`), TXT record addition
(`add_txt_record`) and TXT record deletion (`del_txt_record`).

The remote Azure DNS API is modelled as an oracle (`Remote`) giving the
outcome of each remote call an invocation can make: the fully drained
zone listing, the record-set `get`, the `create_or_update` upsert and the
`delete`.

A failing remote call raises one of two exception families
(`RemoteError`).  The source constructs a track-2 Azure client — it
passes an `azure.identity.ClientSecretCredential` and a
`credential_scopes` keyword to `DnsManagementClient` (lines 117-127) and
catches `azure.core.exceptions.ResourceNotFoundError` for the
404-on-get path (lines 145, 174) — and a track-2 client signals
network/auth/service failures with `azure.core.exceptions.HttpResponseError`
subtypes.  The `msrestazure` `CloudError` that the source's
`except CloudError` clauses (lines 155, 192, 213) catch belongs to the
legacy track-1 SDK and is a separate hierarchy; the oracle carries both,
so the handlers catch exactly the `CloudError` outcomes and every
`HttpResponseError` outcome escapes them.  A missing record set is the
distinct `ResourceNotFoundError` outcome of `get`.  Each embedded
operation returns the sequence of remote calls it performed, the log
entries it emitted, and the exception (if any) that escaped to the
caller.
-/

/-- Log severity used by the module (`logger.warning` / `logger.error`). -/
inductive LogLevel
  | warning
  | error
deriving DecidableEq, Repr

/-- Azure SDK `TxtRecord`: one TXT entry, holding a list of strings. -/
structure TxtRecord where
  value : List String
deriving DecidableEq, Repr

/-- Azure SDK `RecordSet` (TXT flavour): a TTL and a list of TXT entries. -/
structure RecordSet where
  ttl : Nat
  txt_records : List TxtRecord
deriving DecidableEq, Repr

/-- Python `certbot.errors.PluginError`, with the data each raise site puts in the
message kept structurally: the zone-listing failure message (line 215), the
domain together with the full guess list (lines 222-225), and the wrapped
Azure API error of `add_txt_record` (line 157). -/
inductive PluginError
  | zoneListError (msg : String)
  | zoneNotFound (domain : String) (guesses : List String)
  | apiError (msg : String)
deriving DecidableEq, Repr

/-- An exception a failing remote call raises: the legacy track-1
`msrestazure.azure_exceptions.CloudError` (the only class the source's
remote-error handlers catch), or an
`azure.core.exceptions.HttpResponseError` subtype, the family the
track-2 client the source builds actually raises for
network/auth/service failures.  The two are unrelated hierarchies, so an
`except CloudError` clause does not catch an `HttpResponseError`. -/
inductive RemoteError
  | cloudError (msg : String)
  | httpResponseError (msg : String)
deriving DecidableEq, Repr

/-- An exception escaping a piece of the Python code: a `PluginError`,
or a raw remote-API exception. -/
inductive PyError
  | plugin (e : PluginError)
  | remote (e : RemoteError)
deriving DecidableEq, Repr

/-- Outcome of `record_sets.get`: the record set, a
`ResourceNotFoundError` (the 404 case, caught at lines 145/174), or a
remote failure. -/
inductive GetResult
  | found (r : RecordSet)
  | notFound
  | failed (e : RemoteError)
deriving DecidableEq, Repr

/-- Oracle for the remote Azure DNS API during one invocation: result of
the (fully drained, paginated) zone listing, of the record-set `get`, of
the `create_or_update` upsert, and of the `delete`.  An `Except.error`
carries the exception the call raised. -/
structure Remote where
  zonesList : Except RemoteError (List String)
  getResult : GetResult
  upsertResult : Except RemoteError Unit
  deleteResult : Except RemoteError Unit

/-- A remote call performed by the client, with its arguments. -/
inductive RemoteCall
  | listZones
  | get (zone rel : String)
  | upsert (zone rel : String) (r : RecordSet)
  | delete (zone rel : String)
deriving DecidableEq, Repr

/-- Observable outcome of one `add_txt_record` / `del_txt_record`
invocation: remote calls made (in order), log entries emitted, and the
exception that escaped to the caller (`none` = returned normally). -/
structure RunResult where
  calls : List RemoteCall
  logs : List (LogLevel × PyError)
  error : Option PyError
deriving DecidableEq, Repr

/-- Helper for `splitDot`: walk the characters, cutting at each `'.'`;
`acc` holds the current fragment reversed. -/
def splitDotAux : List Char → List Char → List (List Char)
  | [], acc => [acc.reverse]
  | c :: cs, acc =>
      if c = '.' then acc.reverse :: splitDotAux cs []
      else splitDotAux cs (c :: acc)

/-- Python `s.split('.')`: split at every dot, keeping empty fragments;
`"".split('.') == ['']`. -/
def splitDot (s : String) : List String :=
  (splitDotAux s.data []).map String.mk

/-- Python `'.'.join(ss)`. -/
def joinDot : List String → String
  | [] => ""
  | [s] => s
  | s :: ss => s ++ "." ++ joinDot ss

/-- Modelled from the spec: `certbot.plugins.dns_common.base_domain_name_guesses`
(an external certbot helper, not part of this repository's sources) —
candidate zone names are every suffix of the fqdn at each label boundary,
longest first: `'.'.join(fragments[i:])` for `i = 0, 1, ...`. -/
def baseDomainNameGuesses (domain : String) : List String :=
  let fragments := splitDot domain
  (List.range fragments.length).map fun i => joinDot (fragments.drop i)

/-- Lines 140/169: `".".join(domain.split('.')[0:-len(zone.split('.'))])`.
The Python slice `[0:-k]` (with `k ≥ 1`) keeps the first `len - k`
elements, clamped at zero, matching `List.take` with `Nat` subtraction. -/
def relativeRecordName (domain zone : String) : String :=
  let ds := splitDot domain
  joinDot (ds.take (ds.length - (splitDot zone).length))

/-- Log entries `_find_managed_zone` emits: `logger.error` when the zone
listing raises `CloudError` (line 214).  An `HttpResponseError` from the
listing propagates before reaching that handler, so nothing is logged
for it. -/
def zoneLookupLogs (remote : Remote) : List (LogLevel × PyError) :=
  match remote.zonesList with
  | Except.error (RemoteError.cloudError e) =>
      [(LogLevel.error, PyError.remote (RemoteError.cloudError e))]
  | _ => []

/-- Embedding of `_AzureClient._find_managed_zone` (lines 195-225): drain the zone
listing (a `CloudError` is re-raised as `PluginError`; an
`HttpResponseError` escapes raw, the handler at line 213 not matching
it), then return the first candidate suffix of `domain` that is among
the listed zone names; raise `PluginError` naming the domain and the
guesses if none matches. -/
def findManagedZone (remote : Remote) (domain : String) :
    Except PyError String :=
  match remote.zonesList with
  | Except.error (RemoteError.cloudError e) =>
      Except.error (PyError.plugin (PluginError.zoneListError e))
  | Except.error (RemoteError.httpResponseError e) =>
      Except.error (PyError.remote (RemoteError.httpResponseError e))
  | Except.ok zs =>
    match (baseDomainNameGuesses domain).find? (fun g => zs.contains g) with
    | some z => Except.ok z
    | none =>
        Except.error
          (PyError.plugin
            (PluginError.zoneNotFound domain (baseDomainNameGuesses domain)))

/-- Body of `add_txt_record` (lines 138-154), i.e. the code inside the
outer `try`: resolve the zone, compute the relative name, `get` the
record set (append a fresh single-valued `TxtRecord` if found, build a
new `RecordSet` with the given TTL if `ResourceNotFoundError`), then
upsert.  A `CloudError` from `get` or from the upsert escapes this body
raw; the wrapper below catches it. -/
def addBody (remote : Remote) (domain content : String) (ttl : Nat) :
    RunResult :=
  match findManagedZone remote domain with
  | Except.error e =>
      ⟨[RemoteCall.listZones], zoneLookupLogs remote, some e⟩
  | Except.ok zone =>
    let rel := relativeRecordName domain zone
    match remote.getResult with
    | GetResult.failed e =>
        ⟨[RemoteCall.listZones, RemoteCall.get zone rel],
         zoneLookupLogs remote, some (PyError.remote e)⟩
    | GetResult.found r =>
        let r2 : RecordSet :=
          { r with txt_records := r.txt_records ++ [TxtRecord.mk [content]] }
        match remote.upsertResult with
        | Except.error e =>
            ⟨[RemoteCall.listZones, RemoteCall.get zone rel,
              RemoteCall.upsert zone rel r2],
             zoneLookupLogs remote, some (PyError.remote e)⟩
        | Except.ok _ =>
            ⟨[RemoteCall.listZones, RemoteCall.get zone rel,
              RemoteCall.upsert zone rel r2],
             zoneLookupLogs remote, none⟩
    | GetResult.notFound =>
        let r2 : RecordSet := ⟨ttl, [TxtRecord.mk [content]]⟩
        match remote.upsertResult with
        | Except.error e =>
            ⟨[RemoteCall.listZones, RemoteCall.get zone rel,
              RemoteCall.upsert zone rel r2],
             zoneLookupLogs remote, some (PyError.remote e)⟩
        | Except.ok _ =>
            ⟨[RemoteCall.listZones, RemoteCall.get zone rel,
              RemoteCall.upsert zone rel r2],
             zoneLookupLogs remote, none⟩

/-- Embedding of `_AzureClient.add_txt_record` (lines 129-157): the body wrapped in
`except CloudError` (lines 155-157), which logs at error level and
re-raises as `PluginError`.  Only a `CloudError` is caught: a
`PluginError` from zone discovery and a raw `HttpResponseError` from the
track-2 client both propagate unchanged. -/
def add_txt_record (remote : Remote) (domain content : String) (ttl : Nat) :
    RunResult :=
  let r := addBody remote domain content ttl
  match r.error with
  | some (PyError.remote (RemoteError.cloudError e)) =>
      { r with
        logs := r.logs ++
          [(LogLevel.error, PyError.remote (RemoteError.cloudError e))],
        error := some (PyError.plugin (PluginError.apiError e)) }
  | _ => r

/-- Line 173: `[tr for tr in record.txt_records if tr.value != [record_content]]`
— the entries surviving deletion of `content`. -/
def keptRecords (r : RecordSet) (content : String) : List TxtRecord :=
  r.txt_records.filter (fun tr => tr.value != [content])

/-- Body of `del_txt_record` (lines 167-191), the code inside the outer
`try`: resolve the zone, `get` the record set (return immediately on
`ResourceNotFoundError`), drop every entry whose value list equals
`[content]`, then delete the record set if nothing remains, else upsert
the filtered set. -/
def delBody (remote : Remote) (domain content : String) : RunResult :=
  match findManagedZone remote domain with
  | Except.error e =>
      ⟨[RemoteCall.listZones], zoneLookupLogs remote, some e⟩
  | Except.ok zone =>
    let rel := relativeRecordName domain zone
    match remote.getResult with
    | GetResult.failed e =>
        ⟨[RemoteCall.listZones, RemoteCall.get zone rel],
         zoneLookupLogs remote, some (PyError.remote e)⟩
    | GetResult.notFound =>
        ⟨[RemoteCall.listZones, RemoteCall.get zone rel],
         zoneLookupLogs remote, none⟩
    | GetResult.found r =>
        let kept := keptRecords r content
        if kept.isEmpty then
          match remote.deleteResult with
          | Except.error e =>
              ⟨[RemoteCall.listZones, RemoteCall.get zone rel,
                RemoteCall.delete zone rel],
               zoneLookupLogs remote, some (PyError.remote e)⟩
          | Except.ok _ =>
              ⟨[RemoteCall.listZones, RemoteCall.get zone rel,
                RemoteCall.delete zone rel],
               zoneLookupLogs remote, none⟩
        else
          match remote.upsertResult with
          | Except.error e =>
              ⟨[RemoteCall.listZones, RemoteCall.get zone rel,
                RemoteCall.upsert zone rel ⟨r.ttl, kept⟩],
               zoneLookupLogs remote, some (PyError.remote e)⟩
          | Except.ok _ =>
              ⟨[RemoteCall.listZones, RemoteCall.get zone rel,
                RemoteCall.upsert zone rel ⟨r.ttl, kept⟩],
               zoneLookupLogs remote, none⟩

/-- Embedding of `_AzureClient.del_txt_record` (lines 159-193): the body wrapped in
`except (CloudError, errors.PluginError)` (lines 192-193), which logs the
exception at warning level and swallows it.  Only those two classes are
caught: a raw `HttpResponseError` from the track-2 client escapes the
handler and propagates to the caller. -/
def del_txt_record (remote : Remote) (domain content : String) : RunResult :=
  let r := delBody remote domain content
  match r.error with
  | some (PyError.plugin e) =>
      { r with
        logs := r.logs ++ [(LogLevel.warning, PyError.plugin e)],
        error := none }
  | some (PyError.remote (RemoteError.cloudError e)) =>
      { r with
        logs := r.logs ++
          [(LogLevel.warning, PyError.remote (RemoteError.cloudError e))],
        error := none }
  | _ => r

/-- Unfold `baseDomainNameGuesses` to its range-map form. -/
theorem baseDomainNameGuesses_eq (domain : String) :
    baseDomainNameGuesses domain =
      (List.range (splitDot domain).length).map
        (fun i => joinDot ((splitDot domain).drop i)) := rfl

/-- Generic list lemma: `List.find?` over `(List.range n).map f` returns `f i` for the least
`i < n` satisfying the predicate, provided some index satisfies it. -/
theorem find?_map_range {α : Type} (p : α → Bool) :
    ∀ (n : Nat) (f : Nat → α), (∃ i, i < n ∧ p (f i) = true) →
      ∃ i, i < n ∧ ((List.range n).map f).find? p = some (f i) ∧
        p (f i) = true ∧ ∀ j, j < i → p (f j) = false := by
  intro n
  induction n with
  | zero =>
    intro f hex
    obtain ⟨i, hi, _⟩ := hex
    exact absurd hi (Nat.not_lt_zero i)
  | succ n ih =>
    intro f hex
    rw [List.range_succ_eq_map, List.map_cons, List.map_map]
    cases h0 : p (f 0) with
    | true =>
      refine ⟨0, Nat.succ_pos n, ?_, h0, fun j hj => absurd hj (Nat.not_lt_zero j)⟩
      exact List.find?_cons_of_pos _ h0
    | false =>
      obtain ⟨i, hi, hpi⟩ := hex
      have hex' : ∃ i, i < n ∧ p ((f ∘ Nat.succ) i) = true := by
        cases i with
        | zero => rw [h0] at hpi; exact absurd hpi (by simp)
        | succ i => exact ⟨i, Nat.lt_of_succ_lt_succ hi, hpi⟩
      obtain ⟨i, hi, hfind, hp, hprev⟩ := ih (f ∘ Nat.succ) hex'
      refine ⟨i + 1, Nat.succ_lt_succ hi, ?_, hp, ?_⟩
      · rw [List.find?_cons_of_neg _ (by simp [h0]), hfind]
        rfl
      · intro j hj
        cases j with
        | zero => exact h0
        | succ j => exact hprev j (Nat.lt_of_succ_lt_succ hj)

/-- C1: For every fqdn, zone discovery generates candidate zone names as
the suffixes of the fqdn at every label boundary, ordered longest first
(dropping `i` leading labels for increasing `i`), and returns the first
candidate equal to a listed zone name: the returned zone drops `i` labels,
is listed, and every strictly longer candidate (fewer labels dropped) is
not listed — so the longest listed suffix wins. -/
theorem find_managed_zone_picks_longest (remote : Remote) (zs : List String)
    (domain : String) (hz : remote.zonesList = Except.ok zs)
    (hex : ∃ g, g ∈ baseDomainNameGuesses domain ∧ g ∈ zs) :
    ∃ i, i < (splitDot domain).length ∧
      findManagedZone remote domain =
        Except.ok (joinDot ((splitDot domain).drop i)) ∧
      joinDot ((splitDot domain).drop i) ∈ zs ∧
      ∀ j, j < i → joinDot ((splitDot domain).drop j) ∉ zs := by
  have hmem : ∀ g : String, (zs.contains g = true) ↔ g ∈ zs := by
    intro g
    simp [List.contains, List.elem_iff]
  have hex' : ∃ i, i < (splitDot domain).length ∧
      zs.contains (joinDot ((splitDot domain).drop i)) = true := by
    obtain ⟨g, hg, hgz⟩ := hex
    rw [baseDomainNameGuesses_eq] at hg
    obtain ⟨i, hi, rfl⟩ := List.mem_map.mp hg
    exact ⟨i, List.mem_range.mp hi, (hmem _).mpr hgz⟩
  obtain ⟨i, hi, hfind, hp, hprev⟩ :=
    find?_map_range (fun g => zs.contains g) (splitDot domain).length
      (fun i => joinDot ((splitDot domain).drop i)) hex'
  refine ⟨i, hi, ?_, (hmem _).mp hp, fun j hj hmemj => ?_⟩
  · obtain ⟨zl, gr, ur, dr⟩ := remote
    replace hz : zl = Except.ok zs := hz
    subst hz
    simp only [findManagedZone, baseDomainNameGuesses_eq]
    rw [hfind]
  · rw [← hmem] at hmemj
    rw [hprev j hj] at hmemj
    exact Bool.false_ne_true hmemj

/-- Witness for C1 at the spec's own example: zones
`{example.com, sub.example.com}` and fqdn
`_acme-challenge.sub.example.com`. -/
theorem find_managed_zone_picks_longest_witness :
    ∃ i, i < (splitDot "_acme-challenge.sub.example.com").length ∧
      findManagedZone
        ⟨Except.ok ["example.com", "sub.example.com"], GetResult.notFound,
         Except.ok (), Except.ok ()⟩
        "_acme-challenge.sub.example.com" =
        Except.ok (joinDot ((splitDot "_acme-challenge.sub.example.com").drop i)) ∧
      joinDot ((splitDot "_acme-challenge.sub.example.com").drop i) ∈
        ["example.com", "sub.example.com"] ∧
      ∀ j, j < i →
        joinDot ((splitDot "_acme-challenge.sub.example.com").drop j) ∉
          ["example.com", "sub.example.com"] :=
  find_managed_zone_picks_longest _ ["example.com", "sub.example.com"]
    "_acme-challenge.sub.example.com" rfl
    ⟨"sub.example.com", by decide, by decide⟩

/-- C2: When the TXT record set exists, `add_txt_record` upserts it with
the new single-valued entry appended: the TTL and every existing entry
are preserved, and no duplicate check is made — the count of the new
entry grows by exactly one even if it was already present.  When the
record set does not exist, a new one is upserted with the given TTL and
the single value. -/
theorem add_txt_record_merge (remote : Remote) (domain content : String)
    (ttl : Nat) (zone : String)
    (hz : findManagedZone remote domain = Except.ok zone) :
    (∀ r, remote.getResult = GetResult.found r →
      ∃ r2 : RecordSet,
        (add_txt_record remote domain content ttl).calls =
          [RemoteCall.listZones,
           RemoteCall.get zone (relativeRecordName domain zone),
           RemoteCall.upsert zone (relativeRecordName domain zone) r2] ∧
        r2.ttl = r.ttl ∧
        r2.txt_records = r.txt_records ++ [TxtRecord.mk [content]] ∧
        (∀ tr, tr ∈ r.txt_records → tr ∈ r2.txt_records) ∧
        r2.txt_records.count (TxtRecord.mk [content]) =
          r.txt_records.count (TxtRecord.mk [content]) + 1) ∧
    (remote.getResult = GetResult.notFound →
      (add_txt_record remote domain content ttl).calls =
        [RemoteCall.listZones,
         RemoteCall.get zone (relativeRecordName domain zone),
         RemoteCall.upsert zone (relativeRecordName domain zone)
           (RecordSet.mk ttl [TxtRecord.mk [content]])]) := by
  constructor
  · intro r hg
    refine ⟨⟨r.ttl, r.txt_records ++ [TxtRecord.mk [content]]⟩, ?_, rfl, rfl,
      fun tr htr => List.mem_append_left _ htr, by simp⟩
    cases hur : remote.upsertResult with
    | ok u => simp [add_txt_record, addBody, hz, hg, hur]
    | error e => cases e <;> simp [add_txt_record, addBody, hz, hg, hur]
  · intro hg
    cases hur : remote.upsertResult with
    | ok u => simp [add_txt_record, addBody, hz, hg, hur]
    | error e => cases e <;> simp [add_txt_record, addBody, hz, hg, hur]

/-- Witness for C2: a record set holding `["old"]` and `["v"]` merged
with the (already present) value `"v"` — both old entries survive and a
duplicate entry is appended. -/
theorem add_txt_record_merge_witness :
    ∃ r2 : RecordSet,
      (add_txt_record
        ⟨Except.ok ["example.com"],
         GetResult.found
           (RecordSet.mk 3600 [TxtRecord.mk ["old"], TxtRecord.mk ["v"]]),
         Except.ok (), Except.ok ()⟩
        "_acme-challenge.example.com" "v" 60).calls =
        [RemoteCall.listZones,
         RemoteCall.get "example.com"
           (relativeRecordName "_acme-challenge.example.com" "example.com"),
         RemoteCall.upsert "example.com"
           (relativeRecordName "_acme-challenge.example.com" "example.com") r2] ∧
      r2.ttl = (RecordSet.mk 3600 [TxtRecord.mk ["old"], TxtRecord.mk ["v"]]).ttl ∧
      r2.txt_records =
        (RecordSet.mk 3600 [TxtRecord.mk ["old"], TxtRecord.mk ["v"]]).txt_records ++
          [TxtRecord.mk ["v"]] ∧
      (∀ tr,
        tr ∈ (RecordSet.mk 3600 [TxtRecord.mk ["old"], TxtRecord.mk ["v"]]).txt_records →
        tr ∈ r2.txt_records) ∧
      r2.txt_records.count (TxtRecord.mk ["v"]) =
        (RecordSet.mk 3600
          [TxtRecord.mk ["old"], TxtRecord.mk ["v"]]).txt_records.count
            (TxtRecord.mk ["v"]) + 1 :=
  (add_txt_record_merge
    ⟨Except.ok ["example.com"],
     GetResult.found
       (RecordSet.mk 3600 [TxtRecord.mk ["old"], TxtRecord.mk ["v"]]),
     Except.ok (), Except.ok ()⟩
    "_acme-challenge.example.com" "v" 60 "example.com" rfl).1
    (RecordSet.mk 3600 [TxtRecord.mk ["old"], TxtRecord.mk ["v"]]) rfl

/-- C3: On an existing record set, `del_txt_record` keeps exactly the
entries whose value list differs from `[content]` (exact equality, not
substring); if nothing remains it deletes the record set, otherwise it
upserts the record set with the surviving entries (and the original
TTL), leaving non-matching values intact. -/
theorem del_txt_record_filter (remote : Remote) (domain content : String)
    (zone : String) (r : RecordSet)
    (hz : findManagedZone remote domain = Except.ok zone)
    (hg : remote.getResult = GetResult.found r) :
    (∀ tr, tr ∈ keptRecords r content ↔
      tr ∈ r.txt_records ∧ tr.value ≠ [content]) ∧
    (keptRecords r content = [] →
      (del_txt_record remote domain content).calls =
        [RemoteCall.listZones,
         RemoteCall.get zone (relativeRecordName domain zone),
         RemoteCall.delete zone (relativeRecordName domain zone)]) ∧
    (keptRecords r content ≠ [] →
      (del_txt_record remote domain content).calls =
        [RemoteCall.listZones,
         RemoteCall.get zone (relativeRecordName domain zone),
         RemoteCall.upsert zone (relativeRecordName domain zone)
           (RecordSet.mk r.ttl (keptRecords r content))]) := by
  refine ⟨?_, ?_, ?_⟩
  · intro tr
    simp [keptRecords, List.mem_filter]
  · intro hk
    cases hdr : remote.deleteResult with
    | ok u => simp [del_txt_record, delBody, hz, hg, hk, hdr]
    | error e => cases e <;> simp [del_txt_record, delBody, hz, hg, hk, hdr]
  · intro hk
    cases hk2 : keptRecords r content with
    | nil => exact absurd hk2 hk
    | cons a as =>
      cases hur : remote.upsertResult with
      | ok u => simp [del_txt_record, delBody, hz, hg, hk2, hur]
      | error e => cases e <;> simp [del_txt_record, delBody, hz, hg, hk2, hur]

/-- Witness for C3: deleting value `"v"` from a record set holding
entries `["v"]` and `["w"]` upserts with only `["w"]` left. -/
theorem del_txt_record_filter_witness :
    (∀ tr, tr ∈ keptRecords
        (RecordSet.mk 60 [TxtRecord.mk ["v"], TxtRecord.mk ["w"]]) "v" ↔
      tr ∈ (RecordSet.mk 60 [TxtRecord.mk ["v"], TxtRecord.mk ["w"]]).txt_records ∧
        tr.value ≠ ["v"]) ∧
    (keptRecords (RecordSet.mk 60 [TxtRecord.mk ["v"], TxtRecord.mk ["w"]]) "v" = [] →
      (del_txt_record
        ⟨Except.ok ["example.com"],
         GetResult.found (RecordSet.mk 60 [TxtRecord.mk ["v"], TxtRecord.mk ["w"]]),
         Except.ok (), Except.ok ()⟩
        "_acme-challenge.example.com" "v").calls =
        [RemoteCall.listZones,
         RemoteCall.get "example.com"
           (relativeRecordName "_acme-challenge.example.com" "example.com"),
         RemoteCall.delete "example.com"
           (relativeRecordName "_acme-challenge.example.com" "example.com")]) ∧
    (keptRecords (RecordSet.mk 60 [TxtRecord.mk ["v"], TxtRecord.mk ["w"]]) "v" ≠ [] →
      (del_txt_record
        ⟨Except.ok ["example.com"],
         GetResult.found (RecordSet.mk 60 [TxtRecord.mk ["v"], TxtRecord.mk ["w"]]),
         Except.ok (), Except.ok ()⟩
        "_acme-challenge.example.com" "v").calls =
        [RemoteCall.listZones,
         RemoteCall.get "example.com"
           (relativeRecordName "_acme-challenge.example.com" "example.com"),
         RemoteCall.upsert "example.com"
           (relativeRecordName "_acme-challenge.example.com" "example.com")
           (RecordSet.mk
             (RecordSet.mk 60 [TxtRecord.mk ["v"], TxtRecord.mk ["w"]]).ttl
             (keptRecords
               (RecordSet.mk 60 [TxtRecord.mk ["v"], TxtRecord.mk ["w"]]) "v"))]) :=
  del_txt_record_filter
    ⟨Except.ok ["example.com"],
     GetResult.found (RecordSet.mk 60 [TxtRecord.mk ["v"], TxtRecord.mk ["w"]]),
     Except.ok (), Except.ok ()⟩
    "_acme-challenge.example.com" "v" "example.com"
    (RecordSet.mk 60 [TxtRecord.mk ["v"], TxtRecord.mk ["w"]]) rfl rfl

/-- C4 (refuting evaluation): `del_txt_record` can raise to its caller.
With zone `example.com` listed and the record-set `get` failing with the
`azure.core` `HttpResponseError` a track-2 client raises for a network
failure, the handler at line 192 — which catches only `CloudError` and
`PluginError` — does not match: the exception escapes `del_txt_record`
raw and nothing is logged, contradicting "logged at warning level and
swallowed, and the call returns normally". -/
theorem del_txt_record_raises_on_http_error :
    (del_txt_record
      ⟨Except.ok ["example.com"],
       GetResult.failed (RemoteError.httpResponseError "connection reset"),
       Except.ok (), Except.ok ()⟩
      "_acme-challenge.example.com" "v").error =
      some (PyError.remote (RemoteError.httpResponseError "connection reset")) ∧
    (del_txt_record
      ⟨Except.ok ["example.com"],
       GetResult.failed (RemoteError.httpResponseError "connection reset"),
       Except.ok (), Except.ok ()⟩
      "_acme-challenge.example.com" "v").logs = [] :=
  ⟨rfl, rfl⟩

/-- C5: the relative record name is the fqdn with the trailing zone
suffix stripped at a label boundary, with the remaining labels joined by
`'.'`: if the fqdn's labels are `pre ++ zfrags` and the zone has as many
labels as `zfrags`, the computed name is `joinDot pre`. -/
theorem relative_record_name_strips_zone (domain zone : String)
    (pre zfrags : List String)
    (hd : splitDot domain = pre ++ zfrags)
    (hz : (splitDot zone).length = zfrags.length) :
    relativeRecordName domain zone = joinDot pre := by
  simp only [relativeRecordName]
  rw [hd, hz, List.length_append, Nat.add_sub_cancel, List.take_left]

/-- Witness for C5 at the spec's example: fqdn
`_acme-challenge.example.com` with zone `example.com` gives relative
name `_acme-challenge`. -/
theorem relative_record_name_strips_zone_witness :
    relativeRecordName "_acme-challenge.example.com" "example.com" =
      joinDot ["_acme-challenge"] :=
  relative_record_name_strips_zone "_acme-challenge.example.com" "example.com"
    ["_acme-challenge"] ["example", "com"] (by decide) (by decide)

/-- C6: when no candidate suffix of the fqdn is a listed zone,
`add_txt_record` raises a `PluginError` carrying both the fqdn and the
full candidate list attempted, and performs no record mutation — the
only remote call made is the zone listing. -/
theorem add_txt_record_zone_not_found (remote : Remote) (zs : List String)
    (domain content : String) (ttl : Nat)
    (hz : remote.zonesList = Except.ok zs)
    (hnone : ∀ g, g ∈ baseDomainNameGuesses domain → g ∉ zs) :
    (add_txt_record remote domain content ttl).error =
      some (PyError.plugin
        (PluginError.zoneNotFound domain (baseDomainNameGuesses domain))) ∧
    (add_txt_record remote domain content ttl).calls = [RemoteCall.listZones] := by
  have hfind : (baseDomainNameGuesses domain).find? (fun g => zs.contains g) = none :=
    List.find?_eq_none.mpr fun x hx h =>
      hnone x hx (List.elem_iff.mp h)
  have hf : findManagedZone remote domain =
      Except.error
        (PyError.plugin
          (PluginError.zoneNotFound domain (baseDomainNameGuesses domain))) := by
    obtain ⟨zl, gr, ur, dr⟩ := remote
    replace hz : zl = Except.ok zs := hz
    subst hz
    simp only [findManagedZone]
    rw [hfind]
  constructor
  · simp [add_txt_record, addBody, hf]
  · simp [add_txt_record, addBody, hf]

/-- Witness for C6: fqdn `example.com` against the single listed zone
`other.net`. -/
theorem add_txt_record_zone_not_found_witness :
    (add_txt_record
      ⟨Except.ok ["other.net"], GetResult.notFound, Except.ok (), Except.ok ()⟩
      "example.com" "v" 60).error =
      some (PyError.plugin
        (PluginError.zoneNotFound "example.com"
          (baseDomainNameGuesses "example.com"))) ∧
    (add_txt_record
      ⟨Except.ok ["other.net"], GetResult.notFound, Except.ok (), Except.ok ()⟩
      "example.com" "v" 60).calls = [RemoteCall.listZones] :=
  add_txt_record_zone_not_found
    ⟨Except.ok ["other.net"], GetResult.notFound, Except.ok (), Except.ok ()⟩
    ["other.net"] "example.com" "v" 60 rfl (by decide)

/-- C7: when the record set does not exist (the remote `get` reports
not-found), `del_txt_record` is a no-op: no delete, no upsert, no error
and no log entry — the only remote calls are the listing and the `get`. -/
theorem del_txt_record_absent_noop (remote : Remote)
    (domain content zone : String)
    (hz : findManagedZone remote domain = Except.ok zone)
    (hg : remote.getResult = GetResult.notFound) :
    (del_txt_record remote domain content).error = none ∧
    (del_txt_record remote domain content).calls =
      [RemoteCall.listZones,
       RemoteCall.get zone (relativeRecordName domain zone)] := by
  constructor
  · simp [del_txt_record, delBody, hz, hg]
  · simp [del_txt_record, delBody, hz, hg]

/-- Witness for C7: deleting from an absent record set under zone
`example.com`. -/
theorem del_txt_record_absent_noop_witness :
    (del_txt_record
      ⟨Except.ok ["example.com"], GetResult.notFound, Except.ok (), Except.ok ()⟩
      "_acme-challenge.example.com" "v").error = none ∧
    (del_txt_record
      ⟨Except.ok ["example.com"], GetResult.notFound, Except.ok (), Except.ok ()⟩
      "_acme-challenge.example.com" "v").calls =
      [RemoteCall.listZones,
       RemoteCall.get "example.com"
         (relativeRecordName "_acme-challenge.example.com" "example.com")] :=
  del_txt_record_absent_noop
    ⟨Except.ok ["example.com"], GetResult.notFound, Except.ok (), Except.ok ()⟩
    "_acme-challenge.example.com" "v" "example.com" rfl rfl

/-- C8 (refuting evaluation): a remote communication failure can escape
`add_txt_record` as a raw remote-API exception.  With zone `example.com`
listed and the record-set `get` failing with the `azure.core`
`HttpResponseError` a track-2 client raises for a service failure, the
`except CloudError` at line 155 does not match: the exception escapes
unwrapped instead of surfacing as `PluginError`. -/
theorem add_txt_record_raises_raw_http_error :
    (add_txt_record
      ⟨Except.ok ["example.com"],
       GetResult.failed (RemoteError.httpResponseError "503 Service Unavailable"),
       Except.ok (), Except.ok ()⟩
      "_acme-challenge.example.com" "v" 60).error =
      some (PyError.remote
        (RemoteError.httpResponseError "503 Service Unavailable")) :=
  rfl

/-- C9: every TXT entry `add_txt_record` appends or creates is the
single-string entry `[content]`, and `del_txt_record` removes an entry
only when the entry's entire value list equals `[content]`: an entry
whose value list differs — in particular one holding several strings,
even if one of them equals the target — survives into the upserted
record set. -/
theorem txt_entries_single_valued (remote : Remote) (domain content : String)
    (ttl : Nat) (zone : String) (r : RecordSet) (tr : TxtRecord)
    (hz : findManagedZone remote domain = Except.ok zone)
    (hg : remote.getResult = GetResult.found r)
    (htr : tr ∈ r.txt_records) (hne : tr.value ≠ [content]) :
    (∃ r2 : RecordSet,
      (add_txt_record remote domain content ttl).calls =
        [RemoteCall.listZones,
         RemoteCall.get zone (relativeRecordName domain zone),
         RemoteCall.upsert zone (relativeRecordName domain zone) r2] ∧
      r2.txt_records = r.txt_records ++ [TxtRecord.mk [content]] ∧
      ∀ tr2, tr2 ∈ r2.txt_records →
        tr2 ∈ r.txt_records ∨ tr2.value = [content]) ∧
    (∃ r3 : RecordSet,
      (del_txt_record remote domain content).calls =
        [RemoteCall.listZones,
         RemoteCall.get zone (relativeRecordName domain zone),
         RemoteCall.upsert zone (relativeRecordName domain zone) r3] ∧
      tr ∈ r3.txt_records) := by
  have htr' : tr ∈ keptRecords r content := by
    simp [keptRecords, List.mem_filter, htr, hne]
  constructor
  · refine ⟨⟨r.ttl, r.txt_records ++ [TxtRecord.mk [content]]⟩, ?_, rfl, ?_⟩
    · cases hur : remote.upsertResult with
      | ok u => simp [add_txt_record, addBody, hz, hg, hur]
      | error e => cases e <;> simp [add_txt_record, addBody, hz, hg, hur]
    · intro tr2 h2
      rcases List.mem_append.mp h2 with h2 | h2
      · exact Or.inl h2
      · rcases List.mem_singleton.mp h2 with rfl
        exact Or.inr rfl
  · refine ⟨⟨r.ttl, keptRecords r content⟩, ?_, htr'⟩
    cases hk2 : keptRecords r content with
    | nil => rw [hk2] at htr'; exact absurd htr' (List.not_mem_nil tr)
    | cons a as =>
      cases hur : remote.upsertResult with
      | ok u => simp [del_txt_record, delBody, hz, hg, hk2, hur]
      | error e => cases e <;> simp [del_txt_record, delBody, hz, hg, hk2, hur]

/-- Witness for C9: under zone `b`, a record set with the single
two-string entry `["v", "w"]`; deleting value `"v"` does not remove it,
and adding `"v"` appends the singleton entry `["v"]`. -/
theorem txt_entries_single_valued_witness :
    (∃ r2 : RecordSet,
      (add_txt_record
        ⟨Except.ok ["b"], GetResult.found (RecordSet.mk 60 [TxtRecord.mk ["v", "w"]]),
         Except.ok (), Except.ok ()⟩ "a.b" "v" 60).calls =
        [RemoteCall.listZones,
         RemoteCall.get "b" (relativeRecordName "a.b" "b"),
         RemoteCall.upsert "b" (relativeRecordName "a.b" "b") r2] ∧
      r2.txt_records =
        (RecordSet.mk 60 [TxtRecord.mk ["v", "w"]]).txt_records ++
          [TxtRecord.mk ["v"]] ∧
      ∀ tr2, tr2 ∈ r2.txt_records →
        tr2 ∈ (RecordSet.mk 60 [TxtRecord.mk ["v", "w"]]).txt_records ∨
          tr2.value = ["v"]) ∧
    (∃ r3 : RecordSet,
      (del_txt_record
        ⟨Except.ok ["b"], GetResult.found (RecordSet.mk 60 [TxtRecord.mk ["v", "w"]]),
         Except.ok (), Except.ok ()⟩ "a.b" "v").calls =
        [RemoteCall.listZones,
         RemoteCall.get "b" (relativeRecordName "a.b" "b"),
         RemoteCall.upsert "b" (relativeRecordName "a.b" "b") r3] ∧
      TxtRecord.mk ["v", "w"] ∈ r3.txt_records) :=
  txt_entries_single_valued
    ⟨Except.ok ["b"], GetResult.found (RecordSet.mk 60 [TxtRecord.mk ["v", "w"]]),
     Except.ok (), Except.ok ()⟩ "a.b" "v" 60 "b"
    (RecordSet.mk 60 [TxtRecord.mk ["v", "w"]]) (TxtRecord.mk ["v", "w"])
    rfl rfl (by decide) (by decide)

/-- C10: if the fqdn is itself the zone that discovery returns, the
computed relative record name is the empty string, and both operations
proceed with it — their record `get` targets `(zone, "")`. -/
theorem empty_relative_name_when_fqdn_is_zone (remote : Remote)
    (domain content : String) (ttl : Nat)
    (hz : findManagedZone remote domain = Except.ok domain) :
    relativeRecordName domain domain = "" ∧
    RemoteCall.get domain "" ∈ (add_txt_record remote domain content ttl).calls ∧
    RemoteCall.get domain "" ∈ (del_txt_record remote domain content).calls := by
  have h0 : relativeRecordName domain domain = "" := by
    simp [relativeRecordName, joinDot]
  refine ⟨h0, ?_, ?_⟩
  · cases hgr : remote.getResult with
    | failed e => cases e <;> simp [add_txt_record, addBody, hz, h0, hgr]
    | found r =>
        cases hur : remote.upsertResult with
        | ok u => simp [add_txt_record, addBody, hz, h0, hgr, hur]
        | error e => cases e <;> simp [add_txt_record, addBody, hz, h0, hgr, hur]
    | notFound =>
        cases hur : remote.upsertResult with
        | ok u => simp [add_txt_record, addBody, hz, h0, hgr, hur]
        | error e => cases e <;> simp [add_txt_record, addBody, hz, h0, hgr, hur]
  · cases hgr : remote.getResult with
    | failed e => cases e <;> simp [del_txt_record, delBody, hz, h0, hgr]
    | notFound => simp [del_txt_record, delBody, hz, h0, hgr]
    | found r =>
        cases hk : keptRecords r content with
        | nil =>
            cases hdr : remote.deleteResult with
            | ok u => simp [del_txt_record, delBody, hz, h0, hgr, hk, hdr]
            | error e =>
                cases e <;> simp [del_txt_record, delBody, hz, h0, hgr, hk, hdr]
        | cons a as =>
            cases hur : remote.upsertResult with
            | ok u => simp [del_txt_record, delBody, hz, h0, hgr, hk, hur]
            | error e =>
                cases e <;> simp [del_txt_record, delBody, hz, h0, hgr, hk, hur]

/-- Witness for C10: fqdn `example.com` is itself the listed zone. -/
theorem empty_relative_name_when_fqdn_is_zone_witness :
    relativeRecordName "example.com" "example.com" = "" ∧
    RemoteCall.get "example.com" "" ∈
      (add_txt_record
        ⟨Except.ok ["example.com"], GetResult.notFound, Except.ok (), Except.ok ()⟩
        "example.com" "v" 60).calls ∧
    RemoteCall.get "example.com" "" ∈
      (del_txt_record
        ⟨Except.ok ["example.com"], GetResult.notFound, Except.ok (), Except.ok ()⟩
        "example.com" "v").calls :=
  empty_relative_name_when_fqdn_is_zone
    ⟨Except.ok ["example.com"], GetResult.notFound, Except.ok (), Except.ok ()⟩
    "example.com" "v" 60 rfl

-- Sanity checks of the embedding on concrete inputs.
example : baseDomainNameGuesses "_acme-challenge.sub.example.com" =
    ["_acme-challenge.sub.example.com", "sub.example.com", "example.com", "com"] := by
  decide

example : relativeRecordName "_acme-challenge.example.com" "example.com" =
    "_acme-challenge" := by decide

example : relativeRecordName "example.com" "example.com" = "" := by decide

example :
    findManagedZone
      ⟨Except.ok ["example.com", "sub.example.com"], GetResult.notFound,
       Except.ok (), Except.ok ()⟩
      "_acme-challenge.sub.example.com" = Except.ok "sub.example.com" := by
  rfl
